import Mathlib

/-!
Verification of the date-shift engine of nuh_helper
(src/nuh_helper/date_shift/__init__.py), shallowly embedded.

Python strings are modelled as lists of characters (PyStr); pandas
Timestamps as a rata-die day number (days since 1970-01-01) together
with a time-of-day component in nanoseconds; raw cell values as the
inductive type Value.  Behaviour of external libraries that the module
merely calls into is kept abstract as a parameter: the process-global
generator of Python's random module (structure RNG) and the permissive
pandas fallback date parse (the fb argument of the date parser).
-/

namespace NuhHelper

/-- Python strings, modelled as lists of characters. -/
abbrev PyStr := List Char

/-- Whitespace characters stripped by Python str.strip (ASCII fragment). -/
def isPySpace (c : Char) : Bool :=
  c = ' ' || c = '\t' || c = '\n' || c = '\r' || c = '\x0b' || c = '\x0c'

/-- Python str.strip: remove leading and trailing whitespace. -/
def pyStrip (s : PyStr) : PyStr :=
  List.rdropWhile isPySpace (s.dropWhile isPySpace)

/-- Python str.lower, on the ASCII letters the module compares against. -/
def pyLower (s : PyStr) : PyStr := s.map Char.toLower

/-- Gregorian leap-year rule, as used by datetime. -/
def isLeapYear (y : Int) : Bool :=
  y % 4 = 0 && (y % 100 ≠ 0 || y % 400 = 0)

/-- Number of days in a month of the proleptic Gregorian calendar. -/
def daysInMonth (y m : Int) : Int :=
  if m = 2 then (if isLeapYear y then 29 else 28)
  else if m = 4 ∨ m = 6 ∨ m = 9 ∨ m = 11 then 30
  else 31

/-- Rata-die day number (days since 1970-01-01) of a civil date,
following the standard era/year-of-era computation used by date
libraries. -/
def civilToRd (y m d : Int) : Int :=
  let yy := if m ≤ 2 then y - 1 else y
  let era := (if 0 ≤ yy then yy else yy - 399).tdiv 400
  let yoe := yy - era * 400
  let doy := (153 * (if 2 < m then m - 3 else m + 9) + 2).tdiv 5 + d - 1
  let doe := yoe * 365 + yoe.tdiv 4 - yoe.tdiv 100 + doy
  era * 146097 + doe - 719468

/-- Civil date of a rata-die day number (inverse of civilToRd). -/
def rdToCivil (rd : Int) : Int × Int × Int :=
  let z := rd + 719468
  let era := (if 0 ≤ z then z else z - 146096).tdiv 146097
  let doe := z - era * 146097
  let yoe := (doe - doe.tdiv 1460 + doe.tdiv 36524 - doe.tdiv 146096).tdiv 365
  let y := yoe + era * 400
  let doy := doe - (365 * yoe + yoe.tdiv 4 - yoe.tdiv 100)
  let mp := (5 * doy + 2).tdiv 153
  let d := doy - (153 * mp + 2).tdiv 5 + 1
  let m := if mp < 10 then mp + 3 else mp - 9
  (if m ≤ 2 then y + 1 else y, m, d)

/-- A pandas Timestamp: rata-die day number plus time-of-day in
nanoseconds.  A value with tod = 0 also stands for the Python date
objects the module produces with .date(). -/
structure Timestamp where
  rd : Int
  tod : Nat
deriving DecidableEq, Repr

/-- First rata-die day representable as a (nanosecond) pandas Timestamp
at midnight. -/
def tsMinRd : Int := civilToRd 1677 9 22

/-- Last rata-die day representable as a (nanosecond) pandas Timestamp. -/
def tsMaxRd : Int := civilToRd 2262 4 11

/-- A raw cell value: Python None, a float NaN, a string, a non-string
scalar (integer), or a datetime-like value (pd.Timestamp / datetime /
date). -/
inductive Value where
  | none
  | nan
  | str (s : PyStr)
  | int (n : Int)
  | dt (t : Timestamp)
deriving DecidableEq, Repr

/-- Numeric value of an ASCII digit character. -/
def digitVal (c : Char) : Nat := c.toNat - 48

/-- Parse a non-empty all-digit string into a number. -/
def parseDigits (s : PyStr) : Option Nat :=
  if s ≠ [] ∧ s.all Char.isDigit then
    some (s.foldl (fun a c => a * 10 + digitVal c) 0)
  else Option.none

/-- strptime year directive: exactly four digits. -/
def parseYearField (s : PyStr) : Option Int :=
  match parseDigits s with
  | some n => if s.length = 4 then some (Int.ofNat n) else Option.none
  | Option.none => Option.none

/-- strptime month/day directive: one or two digits, value between 1 and
hi (12 for a month, 31 for a day), matching the directive's regular
expression. -/
def parseMdField (hi : Nat) (s : PyStr) : Option Int :=
  match parseDigits s with
  | some n =>
    if s.length ≤ 2 ∧ 1 ≤ n ∧ n ≤ hi then some (Int.ofNat n) else Option.none
  | Option.none => Option.none

/-- Construction of the parsed Timestamp from matched fields: datetime
validates the calendar date, and pandas additionally coerces dates
outside the representable Timestamp range to NaT. -/
def mkDateTs (y m d : Int) : Option Timestamp :=
  if 1 ≤ y ∧ y ≤ 9999 ∧ 1 ≤ d ∧ d ≤ daysInMonth y m then
    let rd := civilToRd y m d
    if tsMinRd ≤ rd ∧ rd ≤ tsMaxRd then some ⟨rd, 0⟩ else Option.none
  else Option.none

/-- The four explicit formats tried by the module, in source order:
"%Y-%m-%d", "%Y-%d-%m", "%d-%m-%Y", "%m-%d-%Y". -/
inductive DateFmt where
  | ymd | ydm | dmy | mdy
deriving DecidableEq, Repr

/-- The fixed order in which the source tries the explicit formats. -/
def fmtOrder : List DateFmt := [.ymd, .ydm, .dmy, .mdy]

/-- Which of the three dash-separated parts holds the year, month and
day string for a given format. -/
def fieldStrings (f : DateFmt) (A B C : PyStr) : PyStr × PyStr × PyStr :=
  match f with
  | .ymd => (A, B, C)
  | .ydm => (A, C, B)
  | .dmy => (C, B, A)
  | .mdy => (C, A, B)

/-- pd.to_datetime(v, format=fmt, errors="coerce") for one of the four
explicit dash-separated formats, on an already-stripped string: the
string must consist of exactly three dash-separated parts, each part
must match its strptime directive, and the resulting civil date must be
valid and representable. -/
def parseWithFormat (f : DateFmt) (v : PyStr) : Option Timestamp :=
  match v.splitOn '-' with
  | [A, B, C] =>
    let p := fieldStrings f A B C
    match parseYearField p.1, parseMdField 12 p.2.1, parseMdField 31 p.2.2 with
    | some y, some m, some d => mkDateTs y m d
    | _, _, _ => Option.none
  | _ => Option.none

/-- The placeholder tokens the module treats as "no date". -/
def placeholderTokens : List PyStr :=
  ["unknown".toList, "unk".toList, "unkown".toList,
   "n/a".toList, "none".toList, "null".toList]

/-- A string whose stripped form is empty or whose stripped, lowered
form is a placeholder token. -/
def isPlaceholderStr (s : PyStr) : Prop :=
  pyStrip s = [] ∨ pyLower (pyStrip s) ∈ placeholderTokens

instance (s : PyStr) : Decidable (isPlaceholderStr s) := by
  unfold isPlaceholderStr; infer_instance

/-- _parse_date_value: parse a raw cell value into a Timestamp if
possible.  The permissive pandas fallback parse (pd.to_datetime with
dayfirst=True, tried when no explicit format matches) is an external
library call and is passed in as the parameter fb. -/
def _parse_date_value (fb : PyStr → Option Timestamp) : Value → Option Timestamp
  | .none => Option.none
  | .nan => Option.none
  | .dt t => some t
  | .str s =>
    let v := pyStrip s
    if v = [] then Option.none
    else if pyLower v ∈ placeholderTokens then Option.none
    else
      match List.findSome? (fun f => parseWithFormat f v) fmtOrder with
      | some t => some t
      | Option.none => fb v
  | .int _ => Option.none

/-- Python str() of an integer. -/
def pyStrOfInt (n : Int) : PyStr := (toString n).toList

/-- Zero-padded decimal rendering of a non-negative number. -/
def padNum (width n : Nat) : PyStr :=
  let s := (toString n).toList
  List.replicate (width - s.length) '0' ++ s

/-- Python str() of a Timestamp: "YYYY-MM-DD HH:MM:SS" with a
nanosecond fraction when the time of day is not a whole second. -/
def pyStrOfTimestamp (t : Timestamp) : PyStr :=
  let c := rdToCivil t.rd
  let secs := t.tod / 1000000000
  let frac := t.tod % 1000000000
  padNum 4 c.1.toNat ++ ['-'] ++ padNum 2 c.2.1.toNat ++ ['-'] ++ padNum 2 c.2.2.toNat
    ++ [' '] ++ padNum 2 (secs / 3600) ++ [':'] ++ padNum 2 (secs / 60 % 60)
    ++ [':'] ++ padNum 2 (secs % 60)
    ++ (if frac = 0 then [] else ['.'] ++ padNum 9 frac)

/-- Python str() of a scalar cell value (only consulted by the
normalizer for non-null, non-string scalars). -/
def pyStrOfValue : Value → PyStr
  | .str s => s
  | .int n => pyStrOfInt n
  | .dt t => pyStrOfTimestamp t
  | .nan => "nan".toList
  | .none => "None".toList

/-- _normalize_patient_id: None and NaN are undefined; strings are
stripped; any other scalar is stringified then stripped; an empty
result is undefined. -/
def _normalize_patient_id : Value → Option PyStr
  | .none => Option.none
  | .nan => Option.none
  | .str s =>
    let v := pyStrip s
    if v = [] then Option.none else some v
  | v =>
    let w := pyStrip (pyStrOfValue v)
    if w = [] then Option.none else some w

/-- A pandas DataFrame: the list of column names and the rows, each row
giving the cell value under a column name. -/
structure DataFrame where
  cols : List String
  rows : List (String → Value)

/-- Assignment of one column of a row: used both for column-wise
.apply (when f only reads the old cell) and for the row-wise
df.apply(..., axis=1). -/
def updCell (c : String) (f : (String → Value) → Value)
    (r : String → Value) : String → Value :=
  fun x => if x = c then f r else r x

/-- Embed an optional normalized identifier back into a cell value. -/
def valueOfOptStr : Option PyStr → Value
  | Option.none => .none
  | some s => .str s

/-- Embed an optional parsed Timestamp back into a cell value. -/
def valueOfOptTs : Option Timestamp → Value
  | Option.none => .none
  | some t => .dt t

/-- The shift_mappings frame, as its list of (patient_id, shift_days)
rows. -/
abbrev ShiftMap := List (Value × Int)

/-- Lookup in dict(zip(mapping.patient_id, mapping.shift_days)): for a
duplicated key the last occurrence wins, as in a Python dict built by
zip. -/
def dictGet (m : ShiftMap) (k : Value) : Option Int :=
  (m.reverse.find? (fun p => decide (p.1 = k))).map Prod.snd

/-- The row lambda of the shift step: when the parsed cell is present
and the row's identifier is a key of the dict, add the offset as a
day Timedelta (which leaves the time of day unchanged); otherwise the
cell passes through. -/
def shiftCell (m : ShiftMap) (pidv : Value) : Value → Value
  | .dt t =>
    match dictGet m pidv with
    | some off => .dt ⟨t.rd + off, t.tod⟩
    | Option.none => .dt t
  | v => v

/-- The final conversion of a date column: x.date() for datetime-like
values (dropping the time of day), None for anything else. -/
def truncCell : Value → Value
  | .dt t => .dt ⟨t.rd, 0⟩
  | _ => .none

/-- Processing of one configured date column by apply_date_shifts:
parse each cell, then shift row-wise by the owner's offset, then
convert to date-only values. -/
def processColumn (fb : PyStr → Option Timestamp) (pid c : String)
    (m : ShiftMap) (r : String → Value) : String → Value :=
  let r1 := updCell c (fun r0 => valueOfOptTs (_parse_date_value fb (r0 c))) r
  let r2 := updCell c (fun r0 => shiftCell m (r0 pid) (r0 c)) r1
  updCell c (fun r0 => truncCell (r0 c)) r2

/-- apply_date_shifts: work on a copy, normalize the identifier column,
then process each configured date column, silently skipping names
absent from the table's columns. -/
def apply_date_shifts (fb : PyStr → Option Timestamp) (df : DataFrame)
    (pid : String) (dateCols : List String) (m : ShiftMap) : DataFrame :=
  let rows1 := df.rows.map
    (updCell pid (fun r0 => valueOfOptStr (_normalize_patient_id (r0 pid))))
  { cols := df.cols
    rows := dateCols.foldl
      (fun rs c => if c ∈ df.cols then rs.map (processColumn fb pid c m) else rs)
      rows1 }

/-- The process-global generator of Python's random module, abstracted
to the two operations the source uses: random.seed and
random.randint (which draws inclusively and advances the state). -/
structure RNG (σ : Type) where
  seedFn : Int → σ
  randint : Int → Int → σ → Int × σ

/-- The list comprehension of generate_shift_mappings: one randint draw
per identifier, threading the generator state left to right. -/
def drawShifts {σ : Type} (rng : RNG σ) (lo hi : Int) : Nat → σ → List Int × σ
  | 0, st => ([], st)
  | n + 1, st =>
    let p := rng.randint lo hi st
    let q := drawShifts rng lo hi n p.2
    (p.1 :: q.1, q.2)

/-- generate_shift_mappings: when a seed is supplied the global
generator is reseeded first, then one offset is drawn per identifier in
list order; the result pairs identifiers with their offsets. -/
def generate_shift_mappings {σ : Type} (rng : RNG σ) (patient_ids : List PyStr)
    (lo hi : Int) (seed : Option Int) (st : σ) : List (PyStr × Int) × σ :=
  let st0 := match seed with
    | some s => rng.seedFn s
    | Option.none => st
  let q := drawShifts rng lo hi patient_ids.length st0
  (patient_ids.zip q.1, q.2)

/-- drop_duplicates(subset="patient_id", keep="first"), with the set of
already-seen keys as accumulator. -/
def dedupFirstAux (seen : List PyStr) : List (PyStr × Int) → List (PyStr × Int)
  | [] => []
  | p :: rest =>
    if p.1 ∈ seen then dedupFirstAux seen rest
    else p :: dedupFirstAux (p.1 :: seen) rest

/-- drop_duplicates(subset="patient_id", keep="first"). -/
def dedupFirst (l : List (PyStr × Int)) : List (PyStr × Int) :=
  dedupFirstAux [] l

/-- The common tail of the mapping construction in shift_excel_dates:
re-normalize every identifier, drop the null ones, and deduplicate
keeping the first occurrence. -/
def finalizeMappings (m : List (Value × Int)) : List (PyStr × Int) :=
  dedupFirst (m.filterMap (fun p => (_normalize_patient_id p.1).map (fun s => (s, p.2))))

/-- The linking-table reconciliation of shift_excel_dates: keep the
loaded entries whose identifier occurs in the current dataset, generate
fresh offsets for exactly the missing identifiers (when there are any)
and append them, then normalize, drop nulls and deduplicate keeping
first occurrences. -/
def reconcile_shift_mappings {σ : Type} (rng : RNG σ) (loaded : List (Value × Int))
    (patient_ids : List PyStr) (lo hi : Int) (seed : Option Int) (st : σ) :
    List (PyStr × Int) × σ :=
  let filtered := loaded.filter (fun p => decide (p.1 ∈ patient_ids.map Value.str))
  let existing := filtered.map Prod.fst
  let missing := patient_ids.filter (fun pid => decide (Value.str pid ∉ existing))
  let merged :=
    if missing.isEmpty then (filtered, st)
    else
      let q := generate_shift_mappings rng missing lo hi seed st
      (filtered ++ q.1.map (fun p => (Value.str p.1, p.2)), q.2)
  (finalizeMappings merged.1, merged.2)

/-- A trivial instantiation of the fallback parse, used for concrete
runs that never reach the fallback. -/
def noFallback : PyStr → Option Timestamp := fun _ => Option.none

/-- Feeding the result of the normalizer back into it, for the
idempotence property. -/
def renormalize (o : Option PyStr) : Option PyStr :=
  match o with
  | Option.none => _normalize_patient_id Value.none
  | some s => _normalize_patient_id (Value.str s)

/-- A concrete one-patient row with an identifier cell and a date
cell, for concrete runs. -/
def rowOf (idv dv : Value) : String → Value :=
  fun x => if x = "patient_id" then idv else if x = "visit_date" then dv else .none

/-- A concrete one-row table with an identifier column and a date
column, for concrete runs. -/
def dfOf (idv dv : Value) : DataFrame :=
  { cols := ["patient_id", "visit_date"], rows := [rowOf idv dv] }

/-- One step of the per-row date-column fold. -/
def rowStep (fb : PyStr → Option Timestamp) (pid : String) (m : ShiftMap)
    (cols : List String) (r : String → Value) (c : String) : String → Value :=
  if c ∈ cols then processColumn fb pid c m r else r

/-- The per-row action of the date-column loop of apply_date_shifts. -/
def rowKernel (fb : PyStr → Option Timestamp) (pid : String) (m : ShiftMap)
    (cols : List String) (cs : List String) (r : String → Value) : String → Value :=
  cs.foldl (rowStep fb pid m cols) r


/-- Dropping a leading run from an already left-and-right-stripped list
changes nothing: the head (if any) survived the first left strip. -/
theorem dropWhile_rdropWhile_dropWhile {α : Type} (p : α → Bool) (l : List α) :
    List.dropWhile p (List.rdropWhile p (List.dropWhile p l))
      = List.rdropWhile p (List.dropWhile p l) := by
  rw [List.dropWhile_eq_self_iff]
  intro hl
  have hpre := List.rdropWhile_prefix p (List.dropWhile p l)
  have h0 : 0 < (List.dropWhile p l).length :=
    lt_of_lt_of_le hl hpre.length_le
  have hg : (List.rdropWhile p (List.dropWhile p l)).get ⟨0, hl⟩
      = (List.dropWhile p l).get ⟨0, h0⟩ := by
    simpa [List.get_eq_getElem] using hpre.getElem (show 0 < _ from hl)
  rw [hg]
  exact List.dropWhile_get_zero_not p l h0

/-- Python str.strip is idempotent. -/
theorem pyStrip_idem (s : PyStr) : pyStrip (pyStrip s) = pyStrip s := by
  unfold pyStrip
  rw [dropWhile_rdropWhile_dropWhile]
  exact List.rdropWhile_idempotent _ _

/-- Stripping preserves placeholder-hood. -/
theorem isPlaceholderStr_pyStrip {s : PyStr} (h : isPlaceholderStr s) :
    isPlaceholderStr (pyStrip s) := by
  unfold isPlaceholderStr at h ⊢
  rw [pyStrip_idem]
  exact h

/-- A placeholder string parses to absent, whatever the fallback. -/
theorem parse_placeholder_none (fb : PyStr → Option Timestamp) {s : PyStr}
    (h : isPlaceholderStr s) : _parse_date_value fb (.str s) = Option.none := by
  unfold isPlaceholderStr at h
  rcases h with h | h
  · simp [_parse_date_value, h]
  · by_cases he : pyStrip s = [] <;> simp [_parse_date_value, he, h]

theorem updCell_self (c : String) (f : (String → Value) → Value) (r : String → Value) :
    updCell c f r c = f r := by
  simp [updCell]

theorem updCell_other {x c : String} (h : x ≠ c) (f : (String → Value) → Value)
    (r : String → Value) : updCell c f r x = r x := by
  simp [updCell, h]

/-- Processing a date column leaves every other column alone. -/
theorem processColumn_other {x c : String} (h : x ≠ c)
    (fb : PyStr → Option Timestamp) (pid : String) (m : ShiftMap) (r : String → Value) :
    processColumn fb pid c m r x = r x := by
  simp [processColumn, updCell, h]

/-- Value of the processed date column itself (general form: the owner
identifier is read from the row after the parse step wrote the column). -/
theorem processColumn_self_general (fb : PyStr → Option Timestamp) (pid c : String)
    (m : ShiftMap) (r : String → Value) :
    processColumn fb pid c m r c
      = truncCell (shiftCell m
          (updCell c (fun r0 => valueOfOptTs (_parse_date_value fb (r0 c))) r pid)
          (valueOfOptTs (_parse_date_value fb (r c)))) := by
  simp [processColumn, updCell]

/-- Value of the processed date column when it is not the identifier
column. -/
theorem processColumn_self {pid c : String} (h : pid ≠ c)
    (fb : PyStr → Option Timestamp) (m : ShiftMap) (r : String → Value) :
    processColumn fb pid c m r c
      = truncCell (shiftCell m (r pid) (valueOfOptTs (_parse_date_value fb (r c)))) := by
  rw [processColumn_self_general, updCell_other h]

/-- The date-column loop, acting on the row list, is the per-row kernel
mapped over the rows. -/
theorem foldl_rowSteps_getElem (fb : PyStr → Option Timestamp) (pid : String)
    (m : ShiftMap) (cols : List String) (cs : List String)
    (rs : List (String → Value)) (i : Nat) :
    (cs.foldl (fun rs c => if c ∈ cols then rs.map (processColumn fb pid c m) else rs) rs)[i]?
      = (rs[i]?).map (fun r => rowKernel fb pid m cols cs r) := by
  induction cs generalizing rs with
  | nil => cases h : rs[i]? <;> simp [rowKernel, h]
  | cons c cs ih =>
    rw [List.foldl_cons, ih]
    by_cases h : c ∈ cols
    · rw [if_pos h, List.getElem?_map, Option.map_map]
      cases rs[i]? <;> simp [rowKernel, rowStep, h]
    · rw [if_neg h]
      cases rs[i]? <;> simp [rowKernel, rowStep, h]

/-- The rows of apply_date_shifts are exactly the input rows passed
through identifier normalization and the per-row kernel. -/
theorem apply_date_shifts_getElem (fb : PyStr → Option Timestamp) (df : DataFrame)
    (pid : String) (cs : List String) (m : ShiftMap) (i : Nat) :
    (apply_date_shifts fb df pid cs m).rows[i]?
      = (df.rows[i]?).map (fun r =>
          rowKernel fb pid m df.cols cs
            (updCell pid (fun r0 => valueOfOptStr (_normalize_patient_id (r0 pid))) r)) := by
  show (cs.foldl _ (df.rows.map _))[i]? = _
  rw [foldl_rowSteps_getElem, List.getElem?_map, Option.map_map]
  rfl

/-- The kernel leaves a column alone when no processed column equals it. -/
theorem rowKernel_preserve (fb : PyStr → Option Timestamp) (pid : String)
    (m : ShiftMap) (cols : List String) {cs : List String} {x : String}
    (h : ∀ c ∈ cs, c ≠ x) (r : String → Value) :
    rowKernel fb pid m cols cs r x = r x := by
  induction cs generalizing r with
  | nil => rfl
  | cons c cs ih =>
    have hx : rowStep fb pid m cols r c x = r x := by
      unfold rowStep
      by_cases hc : c ∈ cols
      · rw [if_pos hc, processColumn_other (Ne.symm (h c (List.mem_cons_self c cs)))]
      · rw [if_neg hc]
    calc rowKernel fb pid m cols (c :: cs) r x
        = rowKernel fb pid m cols cs (rowStep fb pid m cols r c) x := rfl
      _ = rowStep fb pid m cols r c x := ih (fun d hd => h d (List.mem_cons_of_mem c hd)) _
      _ = r x := hx

/-- An absent date cell stays absent through the whole kernel. -/
theorem rowKernel_none_absorb (fb : PyStr → Option Timestamp) (pid : String)
    (m : ShiftMap) (cols : List String) (cs : List String) {x : String}
    (r : String → Value) (h : r x = Value.none) :
    rowKernel fb pid m cols cs r x = Value.none := by
  induction cs generalizing r with
  | nil => exact h
  | cons c cs ih =>
    refine ih _ ?_
    unfold rowStep
    by_cases hc : c ∈ cols
    · rw [if_pos hc]
      by_cases hx : x = c
      · subst hx
        rw [processColumn_self_general, h]
        rfl
      · rw [processColumn_other hx, h]
    · rw [if_neg hc, h]

/-- When the date-column list has no duplicates, does not contain the
identifier column, and contains the (present) column c, the kernel's
value at c is: parse the original cell, shift it by the owner's offset,
truncate to date-only. -/
theorem rowKernel_process_once (fb : PyStr → Option Timestamp) (pid c : String)
    (m : ShiftMap) (cols : List String) {cs : List String}
    (hnd : cs.Nodup) (hpid : pid ∉ cs) (hc : c ∈ cs) (hcol : c ∈ cols)
    (r0 : String → Value) :
    rowKernel fb pid m cols cs r0 c
      = truncCell (shiftCell m (r0 pid) (valueOfOptTs (_parse_date_value fb (r0 c)))) := by
  have hcpid : c ≠ pid := ne_of_mem_of_not_mem hc hpid
  obtain ⟨l1, l2, rfl⟩ := List.append_of_mem hc
  rw [List.nodup_append] at hnd
  have hcl2 : c ∉ l2 := (List.nodup_cons.mp hnd.2.1).1
  have hcl1 : c ∉ l1 := fun hm => hnd.2.2 hm (List.mem_cons_self c l2)
  have hpl1 : pid ∉ l1 := fun hm => hpid (List.mem_append_left _ hm)
  have hsplit : rowKernel fb pid m cols (l1 ++ c :: l2) r0
      = rowKernel fb pid m cols l2
          (rowStep fb pid m cols (rowKernel fb pid m cols l1 r0) c) := by
    unfold rowKernel
    rw [List.foldl_append, List.foldl_cons]
  rw [hsplit,
    rowKernel_preserve _ _ _ _ (fun d hd => ne_of_mem_of_not_mem hd hcl2) _]
  unfold rowStep
  rw [if_pos hcol, processColumn_self (Ne.symm hcpid),
    rowKernel_preserve _ _ _ _ (fun d hd => ne_of_mem_of_not_mem hd hpl1) _,
    rowKernel_preserve _ _ _ _ (fun d hd => ne_of_mem_of_not_mem hd hcl1) _]

/-- A cell that is absent or a placeholder string ends absent once its
column is processed (whether or not the column name repeats in the
configured list). -/
theorem rowKernel_placeholder_none (fb : PyStr → Option Timestamp) (pid : String)
    (m : ShiftMap) (cols : List String) {c : String} (hcol : c ∈ cols) :
    ∀ (cs : List String), c ∈ cs → ∀ (r : String → Value),
      (r c = Value.none ∨ ∃ s2, r c = Value.str s2 ∧ isPlaceholderStr s2) →
      rowKernel fb pid m cols cs r c = Value.none := by
  intro cs
  induction cs with
  | nil => intro hmem; exact absurd hmem (List.not_mem_nil c)
  | cons d cs ih =>
    intro hmem r hr
    have hp : _parse_date_value fb (r c) = Option.none := by
      rcases hr with h | ⟨s2, he, hps⟩
      · rw [h]; rfl
      · rw [he]; exact parse_placeholder_none fb hps
    by_cases hd : d = c
    · subst hd
      show rowKernel fb pid m cols cs (rowStep fb pid m cols r d) d = Value.none
      apply rowKernel_none_absorb
      unfold rowStep
      rw [if_pos hcol, processColumn_self_general, hp]
      rfl
    · have hmem2 : c ∈ cs := by
        rcases List.mem_cons.mp hmem with he | hm
        · exact absurd he.symm hd
        · exact hm
      show rowKernel fb pid m cols cs (rowStep fb pid m cols r d) c = Value.none
      apply ih hmem2
      have hkeep : rowStep fb pid m cols r d c = r c := by
        unfold rowStep
        by_cases hg : d ∈ cols
        · rw [if_pos hg, processColumn_other (fun e => hd e.symm)]
        · rw [if_neg hg]
      rw [hkeep]
      exact hr

/-- findSome? returns the value of the first index whose image is some,
when all earlier indices map to none. -/
theorem findSome?_eq_of_first {α β : Type} (f : α → Option β) :
    ∀ (l : List α) (i : Nat) (hi : i < l.length) (t : β),
      f (l.get ⟨i, hi⟩) = some t →
      (∀ j (hj : j < i), f (l.get ⟨j, Nat.lt_trans hj hi⟩) = Option.none) →
      l.findSome? f = some t := by
  intro l
  induction l with
  | nil => intro i hi t hf hn; exact absurd hi (Nat.not_lt_zero i)
  | cons a l ih =>
    intro i hi t hf hn
    cases i with
    | zero =>
      have ha : f a = some t := hf
      simp [List.findSome?, ha]
    | succ i =>
      have h0 : f a = Option.none := hn 0 (Nat.succ_pos i)
      have htail := ih i (Nat.lt_of_succ_lt_succ hi) t (by simpa using hf)
        (fun j hj => by simpa using hn (j + 1) (Nat.succ_lt_succ hj))
      simp [List.findSome?, h0, htail]

/-- C2: two calls of generate_shift_mappings with the same ordered
identifier list, the same bounds and the same non-null seed return
identical mappings, whatever the prior states of the process-global
generator were: reseeding makes the draws independent of that state. -/
theorem C2_generate_reproducible {σ : Type} (rng : RNG σ) (ids : List PyStr)
    (lo hi : Int) (s : Int) (st1 st2 : σ) :
    (generate_shift_mappings rng ids lo hi (some s) st1).1
      = (generate_shift_mappings rng ids lo hi (some s) st2).1 := rfl

/-- C3: reconciling a loaded linking table holding only P001 (with any
offset k) against a dataset holding P001 and P002, under a seed, yields
exactly the two identifiers, P001 keeping its loaded offset k and
P002 receiving the first draw after reseeding - a value independent of
the incoming generator state st, hence identical across reruns. -/
theorem C3_reconcile_scenario {σ : Type} (rng : RNG σ) (k lo hi s : Int) (st : σ) :
    (reconcile_shift_mappings rng [(Value.str "P001".toList, k)]
        ["P001".toList, "P002".toList] lo hi (some s) st).1
      = [("P001".toList, k),
         ("P002".toList, (rng.randint lo hi (rng.seedFn s)).1)] := rfl

/-- C6 counterexample: on an input that is already a datetime value
carrying a nonzero time of day, the date parser returns it with the
time of day intact, not truncated to the calendar date. -/
theorem C6_parse_datetime_counterexample :
    _parse_date_value noFallback (Value.dt ⟨0, 1⟩) = some ⟨0, 1⟩
    ∧ ((_parse_date_value noFallback (Value.dt ⟨0, 1⟩)).map Timestamp.tod) ≠ some 0 :=
  ⟨rfl, by decide⟩

/-- C6 (amended): the date parser returns an already-datetime input
unchanged, preserving any time-of-day component; truncation to the
calendar date happens in apply_date_shifts' final date-only
conversion. -/
theorem C6_parse_datetime_passthrough :
    (∀ (fb : PyStr → Option Timestamp) (t : Timestamp),
        _parse_date_value fb (Value.dt t) = some t)
    ∧ (∀ t : Timestamp, truncCell (Value.dt t) = Value.dt ⟨t.rd, 0⟩) :=
  ⟨fun _ _ => rfl, fun _ => rfl⟩

/-- C8: a configured date column absent from the table's columns is
silently skipped: the result equals the run configured with only the
present date columns, so every present configured column is still
shifted. -/
theorem C8_missing_column_skip (fb : PyStr → Option Timestamp) (df : DataFrame)
    (pid : String) (cs : List String) (m : ShiftMap) :
    apply_date_shifts fb df pid cs m
      = apply_date_shifts fb df pid (cs.filter (fun c => decide (c ∈ df.cols))) m := by
  have key : ∀ (cs : List String) (rs : List (String → Value)),
      cs.foldl (fun rs c => if c ∈ df.cols then rs.map (processColumn fb pid c m) else rs) rs
        = (cs.filter (fun c => decide (c ∈ df.cols))).foldl
            (fun rs c => if c ∈ df.cols then rs.map (processColumn fb pid c m) else rs) rs := by
    intro cs
    induction cs with
    | nil => intro rs; rfl
    | cons c cs ih =>
      intro rs
      by_cases h : c ∈ df.cols
      · simp only [List.filter_cons, decide_eq_true h, if_true, List.foldl_cons, if_pos h]
        exact ih _
      · simp only [List.filter_cons, decide_eq_false h, if_false, List.foldl_cons, if_neg h]
        exact ih rs
  unfold apply_date_shifts
  dsimp only
  congr 1
  exact key cs _

/-- C9: the identifier normalizer is idempotent, and null input, the
empty string and whitespace-only strings normalize to absent. -/
theorem C9_normalize_idempotent :
    (∀ v : Value, renormalize (_normalize_patient_id v) = _normalize_patient_id v)
    ∧ _normalize_patient_id Value.none = Option.none
    ∧ _normalize_patient_id (Value.str "".toList) = Option.none
    ∧ _normalize_patient_id (Value.str "   ".toList) = Option.none := by
  refine ⟨?_, rfl, by decide, by decide⟩
  intro v
  cases v with
  | none => rfl
  | nan => rfl
  | str s =>
    by_cases h : pyStrip s = [] <;>
      simp [_normalize_patient_id, renormalize, h, pyStrip_idem]
  | int n =>
    by_cases h : pyStrip (pyStrOfInt n) = [] <;>
      simp [_normalize_patient_id, renormalize, h, pyStrip_idem, pyStrOfValue]
  | dt t =>
    by_cases h : pyStrip (pyStrOfTimestamp t) = [] <;>
      simp [_normalize_patient_id, renormalize, h, pyStrip_idem, pyStrOfValue]

/-- C1: for every row whose identifier cell normalizes to an identifier
present in the shift mapping and whose cell in a configured date column
parses to a Timestamp t, the output cell is the calendar date of t plus
the identifier's offset in days, stored with no time component (under
the usual configuration: the date-column list has no duplicates and
does not contain the identifier column). -/
theorem C1_apply_shifts_matched (fb : PyStr → Option Timestamp) (df : DataFrame)
    (pid c : String) (cs : List String) (m : ShiftMap) (i : Nat)
    (r : String → Value) (sPid : PyStr) (off : Int) (t : Timestamp)
    (hrow : df.rows[i]? = some r)
    (hnd : cs.Nodup) (hpid : pid ∉ cs) (hc : c ∈ cs) (hcol : c ∈ df.cols)
    (hid : _normalize_patient_id (r pid) = some sPid)
    (hoff : dictGet m (Value.str sPid) = some off)
    (hparse : _parse_date_value fb (r c) = some t) :
    ((apply_date_shifts fb df pid cs m).rows[i]?).map (fun r2 => r2 c)
      = some (Value.dt ⟨t.rd + off, 0⟩) := by
  have hcpid : c ≠ pid := ne_of_mem_of_not_mem hc hpid
  rw [apply_date_shifts_getElem, hrow]
  show some (rowKernel _ _ _ _ _ _ c) = _
  rw [rowKernel_process_once fb pid c m df.cols hnd hpid hc hcol]
  simp only [updCell_self, updCell_other hcpid, hid, hparse]
  simp [valueOfOptStr, valueOfOptTs, shiftCell, hoff, truncCell]

/-- C1 witness: the spec's scenarios, run concretely: P001 with offset
+10 and "2023-01-15" shifts to 2023-01-25; P001 with offset -5 and
"2023-06-01" shifts to 2023-05-27. -/
theorem C1_apply_shifts_matched_witness :
    _normalize_patient_id (rowOf (.str "P001".toList) (.str "2023-01-15".toList) "patient_id")
        = some "P001".toList
    ∧ dictGet [(Value.str "P001".toList, 10)] (Value.str "P001".toList) = some 10
    ∧ _parse_date_value noFallback
        (rowOf (.str "P001".toList) (.str "2023-01-15".toList) "visit_date")
        = some ⟨civilToRd 2023 1 15, 0⟩
    ∧ ((apply_date_shifts noFallback (dfOf (.str "P001".toList) (.str "2023-01-15".toList))
          "patient_id" ["visit_date"] [(Value.str "P001".toList, 10)]).rows[0]?).map
          (fun r2 => r2 "visit_date")
        = some (Value.dt ⟨civilToRd 2023 1 25, 0⟩)
    ∧ ((apply_date_shifts noFallback (dfOf (.str "P001".toList) (.str "2023-06-01".toList))
          "patient_id" ["visit_date"] [(Value.str "P001".toList, -5)]).rows[0]?).map
          (fun r2 => r2 "visit_date")
        = some (Value.dt ⟨civilToRd 2023 5 27, 0⟩) :=
  ⟨by decide, by decide, by decide,
   (C1_apply_shifts_matched noFallback
      (dfOf (.str "P001".toList) (.str "2023-01-15".toList))
      "patient_id" "visit_date" ["visit_date"] [(Value.str "P001".toList, 10)] 0
      (rowOf (.str "P001".toList) (.str "2023-01-15".toList)) "P001".toList 10
      ⟨civilToRd 2023 1 15, 0⟩ rfl (by decide) (by decide) (by decide) (by decide)
      (by decide) (by decide) (by decide)).trans (by decide),
   (C1_apply_shifts_matched noFallback
      (dfOf (.str "P001".toList) (.str "2023-06-01".toList))
      "patient_id" "visit_date" ["visit_date"] [(Value.str "P001".toList, -5)] 0
      (rowOf (.str "P001".toList) (.str "2023-06-01".toList)) "P001".toList (-5)
      ⟨civilToRd 2023 6 1, 0⟩ rfl (by decide) (by decide) (by decide) (by decide)
      (by decide) (by decide) (by decide)).trans (by decide)⟩

/-- C7 counterexample: a row whose identifier P999 is outside the
mapping keeps its calendar date, but the output cell is the parsed
date value, not the original string: the cell is not byte-identical to
the input. -/
theorem C7_unmatched_counterexample :
    dictGet [(Value.str "P001".toList, 10)] (Value.str "P999".toList) = Option.none
    ∧ ((apply_date_shifts noFallback (dfOf (.str "P999".toList) (.str "2023-01-15".toList))
          "patient_id" ["visit_date"] [(Value.str "P001".toList, 10)]).rows[0]?).map
          (fun r2 => r2 "visit_date")
        = some (Value.dt ⟨civilToRd 2023 1 15, 0⟩)
    ∧ ((apply_date_shifts noFallback (dfOf (.str "P999".toList) (.str "2023-01-15".toList))
          "patient_id" ["visit_date"] [(Value.str "P001".toList, 10)]).rows[0]?).map
          (fun r2 => r2 "visit_date")
        ≠ some (Value.str "2023-01-15".toList) :=
  ⟨by decide, by decide, by decide⟩

/-- C7 (amended): for a row whose identifier normalizes to a value not
present in the mapping, the configured date cells pass through with a
zero-day shift: the output cell is the parsed input truncated to its
calendar date (so a date-valued input keeps its calendar date, a date
string is re-represented as a date value, and an unparseable value
becomes absent). -/
theorem C7_unmatched_passthrough (fb : PyStr → Option Timestamp) (df : DataFrame)
    (pid c : String) (cs : List String) (m : ShiftMap) (i : Nat)
    (r : String → Value) (sPid : PyStr)
    (hrow : df.rows[i]? = some r)
    (hnd : cs.Nodup) (hpid : pid ∉ cs) (hc : c ∈ cs) (hcol : c ∈ df.cols)
    (hid : _normalize_patient_id (r pid) = some sPid)
    (hoff : dictGet m (Value.str sPid) = Option.none) :
    ((apply_date_shifts fb df pid cs m).rows[i]?).map (fun r2 => r2 c)
      = some (truncCell (valueOfOptTs (_parse_date_value fb (r c)))) := by
  have hcpid : c ≠ pid := ne_of_mem_of_not_mem hc hpid
  rw [apply_date_shifts_getElem, hrow]
  show some (rowKernel _ _ _ _ _ _ c) = _
  rw [rowKernel_process_once fb pid c m df.cols hnd hpid hc hcol]
  simp only [updCell_self, updCell_other hcpid, hid]
  cases hp : _parse_date_value fb (r c) with
  | none => simp [valueOfOptStr, valueOfOptTs, shiftCell, truncCell]
  | some t => simp [valueOfOptStr, valueOfOptTs, shiftCell, hoff, truncCell]

/-- C7 witness: P999 outside a mapping holding only P001 leaves
"2023-01-15" at calendar date 2023-01-15. -/
theorem C7_unmatched_passthrough_witness :
    _normalize_patient_id (rowOf (.str "P999".toList) (.str "2023-01-15".toList) "patient_id")
        = some "P999".toList
    ∧ dictGet [(Value.str "P001".toList, 10)] (Value.str "P999".toList) = Option.none
    ∧ ((apply_date_shifts noFallback (dfOf (.str "P999".toList) (.str "2023-01-15".toList))
          "patient_id" ["visit_date"] [(Value.str "P001".toList, 10)]).rows[0]?).map
          (fun r2 => r2 "visit_date")
        = some (Value.dt ⟨civilToRd 2023 1 15, 0⟩) :=
  ⟨by decide, by decide,
   (C7_unmatched_passthrough noFallback
      (dfOf (.str "P999".toList) (.str "2023-01-15".toList))
      "patient_id" "visit_date" ["visit_date"] [(Value.str "P001".toList, 10)] 0
      (rowOf (.str "P999".toList) (.str "2023-01-15".toList)) "P999".toList
      rfl (by decide) (by decide) (by decide) (by decide)
      (by decide) (by decide)).trans (by decide)⟩

/-- C5: a string whose trimmed, lowered form is a placeholder token (or
is empty) parses to absent, and a configured date cell holding such a
string is absent in the output of apply_date_shifts - never a date and
never the original string. -/
theorem C5_placeholder_stays_absent (fb : PyStr → Option Timestamp) (s : PyStr)
    (hps : isPlaceholderStr s) :
    _parse_date_value fb (Value.str s) = Option.none
    ∧ ∀ (df : DataFrame) (pid c : String) (cs : List String) (m : ShiftMap)
        (i : Nat) (r : String → Value),
        df.rows[i]? = some r → r c = Value.str s → c ∈ cs → c ∈ df.cols →
        ((apply_date_shifts fb df pid cs m).rows[i]?).map (fun r2 => r2 c)
          = some Value.none := by
  refine ⟨parse_placeholder_none fb hps, ?_⟩
  intro df pid c cs m i r hrow hcell hc hcol
  rw [apply_date_shifts_getElem, hrow]
  show some (rowKernel _ _ _ _ _ _ c) = _
  rw [rowKernel_placeholder_none fb pid m df.cols hcol cs hc _ ?_]
  by_cases hcp : c = pid
  · subst hcp
    rw [updCell_self, hcell]
    by_cases he : pyStrip s = []
    · left
      simp [_normalize_patient_id, he, valueOfOptStr]
    · right
      exact ⟨pyStrip s, by simp [_normalize_patient_id, he, valueOfOptStr],
        isPlaceholderStr_pyStrip hps⟩
  · rw [updCell_other hcp]
    right
    exact ⟨s, hcell, hps⟩

/-- C5 witness: "Unknown" (with case and whitespace noise) parses to
absent and the cell is absent after apply_date_shifts. -/
theorem C5_placeholder_stays_absent_witness :
    isPlaceholderStr (" Unknown ".toList)
    ∧ _parse_date_value noFallback (Value.str " Unknown ".toList) = Option.none
    ∧ ((apply_date_shifts noFallback (dfOf (.str "P001".toList) (.str " Unknown ".toList))
          "patient_id" ["visit_date"] [(Value.str "P001".toList, 10)]).rows[0]?).map
          (fun r2 => r2 "visit_date")
        = some Value.none :=
  ⟨by decide,
   (C5_placeholder_stays_absent noFallback (" Unknown ".toList) (by decide)).1,
   (C5_placeholder_stays_absent noFallback (" Unknown ".toList) (by decide)).2
      (dfOf (.str "P001".toList) (.str " Unknown ".toList))
      "patient_id" "visit_date" ["visit_date"] [(Value.str "P001".toList, 10)] 0
      (rowOf (.str "P001".toList) (.str " Unknown ".toList))
      rfl (by decide) (by decide) (by decide)⟩

/-- C4: for a non-placeholder string the parser tries the explicit
formats year-month-day, year-day-month, day-month-year, month-day-year
in that fixed order and returns the result of the first that matches
(before ever consulting the fallback); in particular "2023-15-01"
parses as year-day-month, i.e. 15 January 2023. -/
theorem C4_format_order :
    (∀ (fb : PyStr → Option Timestamp) (s : PyStr) (t : Timestamp)
        (i : Nat) (hi : i < fmtOrder.length),
      ¬ isPlaceholderStr s →
      parseWithFormat (fmtOrder.get ⟨i, hi⟩) (pyStrip s) = some t →
      (∀ j (hj : j < i),
        parseWithFormat (fmtOrder.get ⟨j, Nat.lt_trans hj hi⟩) (pyStrip s) = Option.none) →
      _parse_date_value fb (Value.str s) = some t)
    ∧ ∀ fb, _parse_date_value fb (Value.str "2023-15-01".toList)
        = some ⟨civilToRd 2023 1 15, 0⟩ := by
  constructor
  · intro fb s t i hi hnp hf hn
    unfold isPlaceholderStr at hnp
    push_neg at hnp
    have hfind := findSome?_eq_of_first (fun f => parseWithFormat f (pyStrip s))
      fmtOrder i hi t hf hn
    simp [_parse_date_value, hnp.1, hnp.2, hfind]
  · intro fb
    rfl

/-- C4 witness: "2023-15-01" fails year-month-day (15 is no month) and
succeeds at the second format year-day-month, and the parser returns
15 January 2023. -/
theorem C4_format_order_witness :
    ¬ isPlaceholderStr ("2023-15-01".toList)
    ∧ parseWithFormat DateFmt.ydm (pyStrip "2023-15-01".toList)
        = some ⟨civilToRd 2023 1 15, 0⟩
    ∧ parseWithFormat DateFmt.ymd (pyStrip "2023-15-01".toList)
        = Option.none
    ∧ _parse_date_value noFallback (Value.str "2023-15-01".toList)
        = some ⟨civilToRd 2023 1 15, 0⟩ :=
  ⟨by decide, by decide, by decide,
   C4_format_order.1 noFallback "2023-15-01".toList ⟨civilToRd 2023 1 15, 0⟩ 1 (by decide)
     (by decide) (by decide)
     (fun j hj => by
        have hj0 : j = 0 := by omega
        subst hj0
        show parseWithFormat DateFmt.ymd (pyStrip "2023-15-01".toList) = Option.none
        decide)⟩

/-- C10: apply_date_shifts (a pure function of its input frame in this
embedding, per the df.copy() in the source) returns a frame whose
identifier column holds the normalized identifiers of the input rows;
the witness exhibits an input where this column therefore differs from
the input. -/
theorem C10_id_column_normalized (fb : PyStr → Option Timestamp) (df : DataFrame)
    (pid : String) (cs : List String) (m : ShiftMap) (i : Nat) (h : pid ∉ cs) :
    ((apply_date_shifts fb df pid cs m).rows[i]?).map (fun r => r pid)
      = (df.rows[i]?).map (fun r => valueOfOptStr (_normalize_patient_id (r pid))) := by
  rw [apply_date_shifts_getElem]
  cases hr : df.rows[i]? with
  | none => rfl
  | some r =>
    show some (rowKernel _ _ _ _ _ _ pid) = _
    rw [rowKernel_preserve _ _ _ _ (fun d hd => ne_of_mem_of_not_mem hd h) _,
      updCell_self]
    rfl

/-- C10 witness: an identifier cell with surrounding whitespace is
rewritten to its normalized form in the output, so a column other than
the configured date columns differs between input and output. -/
theorem C10_id_column_normalized_witness :
    ("patient_id" : String) ∉ (["visit_date"] : List String)
    ∧ ((apply_date_shifts noFallback (dfOf (.str "  P001  ".toList) Value.none)
        "patient_id" ["visit_date"] []).rows[0]?).map (fun r => r "patient_id")
        = some (.str "P001".toList)
    ∧ (Value.str "P001".toList) ≠ Value.str "  P001  ".toList :=
  ⟨by decide,
   by rw [C10_id_column_normalized noFallback (dfOf (.str "  P001  ".toList) Value.none)
        "patient_id" ["visit_date"] [] 0 (by decide)]; decide,
   by decide⟩

end NuhHelper
